import Mathlib

/-!
The shell core `myshell.c`: command dispatch, executors and the zombie reaper.

A shallow embedding of `src/myshell.c`.  The C code talks to the kernel through
`fork`, `pipe`, `open`, `dup2`, `close`, `signal`, `execvp`, `waitpid`, `perror`
and `exit`.  The outcome of every such call is an input of the model (the field
`os` of the process state), the calls made are recorded in a trace, and the
descriptor table and the set of unreaped children are explicit state.

A run of a C function follows ONE process: when `fork` answers `0` the run
continues as the freshly created child (empty trace, no children of its own,
inherited descriptors), otherwise it continues as the caller.  The behaviour of
a dispatch is the collection of these runs over all answers of the kernel.
-/

namespace MyShell

/-! ## Constants of the source -/

def PIPE : Char := '|'
def AMPERSAND : Char := '&'
def REDIRECT : Char := '<'
def FAIL : Int := -1
def CHILD : Int := 0

def PIPE_ERROR : String := "Error while piping"
def OPEN_ERROR : String := "Failed to open the file"
def FINALIZE_WAIT_ERROR : String := "Waitpid() failed in finalize()"
def PREPARE_SIGINT_SIGCHLD_ERROR : String := "SIGINT or SIGCHLD error in prepare()"

/-! ## Constants of the system headers (Linux values) -/

def EINTR : Int := 4
def ECHILD : Int := 10
def WNOHANG : Int := 1
def O_RDONLY : Int := 0

/-- Signals named by the source. -/
inductive Sig where
  | SIGINT
  | SIGCHLD
  deriving DecidableEq, Repr

/-- Signal dispositions named by the source. -/
inductive Handler where
  | SIG_DFL
  | SIG_IGN
  deriving DecidableEq, Repr

/-! ## Process state -/

/-- What an open descriptor refers to. -/
inductive Obj where
  | pipeRead
  | pipeWrite
  | file (path : Option String)
  | inherited (n : Nat)
  deriving DecidableEq, Repr

/-- How a call of `execvp` ends: the image is replaced, the call returns `-1`,
or the process is killed inside the call. -/
inductive ExecAnswer where
  | replaced
  | failed
  | killed
  deriving DecidableEq, Repr

/-- One library call, with its arguments and its answer. -/
inductive Event where
  | perror (msg : String)
  | signal (sig : Sig) (h : Handler) (isErr : Bool)
  | fork (ret : Int)
  | pipe (ret : Int) (fd0 fd1 : Int)
  | openFile (path : Option String) (flags : Int) (ret : Int)
  | dup2 (oldfd newfd : Int) (ret : Int)
  | close (fd : Int)
  | execvp (file : Option String) (argv : List String) (answer : ExecAnswer)
  | waitpid (pid : Int) (options : Int) (ret : Int) (err : Int)
  | exit (status : Int)
  deriving DecidableEq, Repr

/-- Answers of the kernel to the calls of one process, in call order for the
calls that a function makes more than once. -/
structure OS where
  fork_ret : Nat → Int
  waitpid_ret : Nat → Int × Int
  signal_err : Nat → Bool
  pipe_ret : Option (Int × Int)
  open_ret : Int
  dup2_fails : Bool
  execvp_fails : Bool

/-- State of the process the run is following. -/
structure Proc where
  os : OS
  fds : Int → Option Obj
  children : List Int
  errno : Int
  forkDepth : Nat
  trace : List Event

/-- How a run leaves the C function: by `return`, by `exit`, by a successful
`execvp`, or because the process is killed by a signal inside a library call. -/
inductive Outcome where
  | returned (v : Int)
  | exited (status : Int)
  | replaced (file : Option String) (argv : List String)
  | killed
  deriving DecidableEq, Repr

/-- Result of running a piece of C code: either control reaches the next
statement with a value, or the function has been left. -/
inductive Step (α : Type) where
  | next (a : α) (p : Proc)
  | done (o : Outcome) (p : Proc)

/-- Code running in a process. -/
def M (α : Type) : Type := Proc → Step α

def M.pure {α : Type} (a : α) : M α := fun p => Step.next a p

def M.bind {α β : Type} (m : M α) (f : α → M β) : M β := fun p =>
  match m p with
  | Step.next a q => f a q
  | Step.done o q => Step.done o q

instance : Monad M where
  pure := M.pure
  bind := M.bind

def Step.outcome {α : Type} : Step α → Option Outcome
  | Step.next _ _ => none
  | Step.done o _ => some o

def Step.proc {α : Type} : Step α → Proc
  | Step.next _ p => p
  | Step.done _ p => p

def Proc.log (p : Proc) (e : Event) : Proc := { p with trace := p.trace ++ [e] }

/-! ## The library calls -/

/-- The C statement `return v;`. -/
def ret {α : Type} (v : Int) : M α := fun p => Step.done (Outcome.returned v) p

/-- The call `exit(status)`: it does not return. -/
def exit {α : Type} (status : Int) : M α := fun p =>
  Step.done (Outcome.exited status) (p.log (Event.exit status))

def perror (msg : String) : M Unit := fun p => Step.next () (p.log (Event.perror msg))

/-- The call `signal(sig, h)`; the answer says whether it returned `SIG_ERR`. -/
def signal (sig : Sig) (h : Handler) : M Bool := fun p =>
  let e := p.os.signal_err 0
  Step.next e { p with
    os := { p.os with signal_err := fun n => p.os.signal_err (n + 1) },
    trace := p.trace ++ [Event.signal sig h e] }

/-- The call `fork()`.  On `-1` nothing is created.  On `0` the run continues in
the new process.  Otherwise the caller has one more child. -/
def fork : M Int := fun p =>
  let r := p.os.fork_ret 0
  let os1 : OS := { p.os with fork_ret := fun n => p.os.fork_ret (n + 1) }
  if r = -1 then
    Step.next r { p with os := os1, trace := p.trace ++ [Event.fork r] }
  else if r = 0 then
    Step.next r { p with os := os1, children := [], forkDepth := p.forkDepth + 1, trace := [] }
  else
    Step.next r { p with os := os1, children := r :: p.children,
                         trace := p.trace ++ [Event.fork r] }

/-- The call `pipe(pipe_fd)`: returns the status and the two descriptors. -/
def pipe : M (Int × Int × Int) := fun p =>
  match p.os.pipe_ret with
  | none => Step.next (-1, 0, 0) (p.log (Event.pipe (-1) 0 0))
  | some (rd, wr) =>
    Step.next (0, rd, wr) { p with
      fds := Function.update (Function.update p.fds rd (some Obj.pipeRead)) wr (some Obj.pipeWrite),
      trace := p.trace ++ [Event.pipe 0 rd wr] }

/-- The call `open(path, flags)`. -/
def openFile (path : Option String) (flags : Int) : M Int := fun p =>
  let r := p.os.open_ret
  if r = -1 then Step.next r (p.log (Event.openFile path flags r))
  else Step.next r { p with
    fds := Function.update p.fds r (some (Obj.file path)),
    trace := p.trace ++ [Event.openFile path flags r] }

/-- The call `dup2(oldfd, newfd)`. -/
def dup2 (oldfd newfd : Int) : M Int := fun p =>
  if p.os.dup2_fails then Step.next (-1) (p.log (Event.dup2 oldfd newfd (-1)))
  else Step.next newfd { p with
    fds := Function.update p.fds newfd (p.fds oldfd),
    trace := p.trace ++ [Event.dup2 oldfd newfd newfd] }

/-- The call `close(fd)`; its result is ignored by the source. -/
def close (fd : Int) : M Unit := fun p =>
  Step.next () { p with fds := Function.update p.fds fd none, trace := p.trace ++ [Event.close fd] }

/-- The strings of a `NULL`-terminated vector, up to the first `NULL`. -/
def argvOf : List (Option String) → List String
  | [] => []
  | none :: _ => []
  | some s :: rest => s :: argvOf rest

/-- The answer to `execvp(file, argv)`.  With a file name the call either
replaces the image or returns `-1`.  With the `NULL` pointer the call is
undefined in C: the library reads `*file` first, and the process is killed by
`SIGSEGV` inside the call. -/
def execAnswer (os : OS) (file : Option String) : ExecAnswer :=
  if file = none then ExecAnswer.killed
  else if os.execvp_fails then ExecAnswer.failed
  else ExecAnswer.replaced

/-- The call `execvp(file, argv)`: it returns only on failure, with `-1`. -/
def execvp (file : Option String) (argv : List (Option String)) : M Int := fun p =>
  match execAnswer p.os file with
  | ExecAnswer.replaced =>
    Step.done (Outcome.replaced file (argvOf argv))
      (p.log (Event.execvp file (argvOf argv) ExecAnswer.replaced))
  | ExecAnswer.failed =>
    Step.next (-1) (p.log (Event.execvp file (argvOf argv) ExecAnswer.failed))
  | ExecAnswer.killed =>
    Step.done Outcome.killed (p.log (Event.execvp file (argvOf argv) ExecAnswer.killed))

/-- The call `waitpid(pid, NULL or &status, options)`.  A failure sets `errno`;
a positive answer is the pid of a child that has been reaped. -/
def waitpid (pid : Int) (options : Int) : M Int := fun p =>
  let r := (p.os.waitpid_ret 0).1
  let e := (p.os.waitpid_ret 0).2
  Step.next r { p with
    os := { p.os with waitpid_ret := fun n => p.os.waitpid_ret (n + 1) },
    errno := if r = -1 then e else p.errno,
    children := if 0 < r then p.children.erase r else p.children,
    trace := p.trace ++ [Event.waitpid pid options r e] }

/-- The value of the global `errno`. -/
def getErrno : M Int := fun p => Step.next p.errno p

/-! ## The argument vector -/

/-- The vector `char **arglist` handed to `process_arglist`: the tokens followed
by the `NULL` terminator. -/
def mkArglist (tokens : List String) : List (Option String) := tokens.map some ++ [none]

/-- The slot `arglist[i]`. -/
def slot (arglist : List (Option String)) (i : Nat) : Option String := (arglist.getD i none)

/-- The first character of a C string, `NUL` for the empty string. -/
def headChar (s : String) : Char := s.data.headD (Char.ofNat 0)

/-- The character `*s` read through a pointer `s`.  For a `NULL` pointer the
read is undefined in C and yields no character here. -/
def deref : Option String → Option Char
  | none => none
  | some s => some (headChar s)

/-! ## The macros of the source -/

def CHECK_FORK_STATUS (pid : Int) : M Unit :=
  if pid = FAIL then do
    perror "Error while forking"
    ret 0
  else pure ()

def CHECK_WAIT_STATUS (status : Int) : M Unit := do
  let e ← getErrno
  if status = FAIL ∧ e ≠ EINTR ∧ e ≠ ECHILD then do
    perror "Waitpid() failed"
    ret 0
  else pure ()

def CHECK_DUP_STATUS (status : Int) : M Unit :=
  if status = FAIL then do
    perror "dup2() failed"
    exit 1
  else pure ()

def CHECK_EXEC_STATUS (status : Int) : M Unit :=
  if status = FAIL then do
    perror "Error while executing the command"
    exit 1
  else pure ()

def SIGNAL_HANDLER : M Unit := do
  let e1 ← signal Sig.SIGINT Handler.SIG_DFL
  (if e1 then do
    perror "SIGINT error"
    exit 1
  else pure ())
  let e2 ← signal Sig.SIGCHLD Handler.SIG_DFL
  (if e2 then do
    perror "SIGCHLD error"
    exit 1
  else pure ())

/-! ## The functions of the source -/

/-- The body of `prepare`.  The `||` of the source evaluates the second
`signal` only when the first did not fail. -/
def prepare : M Int := do
  let e1 ← signal Sig.SIGINT Handler.SIG_IGN
  (if e1 then do
    perror PREPARE_SIGINT_SIGCHLD_ERROR
    ret 1
  else pure ())
  let e2 ← signal Sig.SIGCHLD Handler.SIG_IGN
  (if e2 then do
    perror PREPARE_SIGINT_SIGCHLD_ERROR
    ret 1
  else pure ())
  ret 0

/-- The body of `executing_commands_in_the_background`.  A C block
`if (c) { ... }` is the action `if c then ... else pure ()`. -/
def executing_commands_in_the_background (count : Nat) (arglist0 : List (Option String)) :
    M Int := do
  let arglist := arglist0.set (count - 1) none
  let pid ← fork
  CHECK_FORK_STATUS pid
  (if pid = CHILD then do
    SIGNAL_HANDLER
    let exec_status ← execvp (slot arglist 0) arglist
    CHECK_EXEC_STATUS exec_status
  else pure ())
  ret 1

/-- The body of `input_redirecting`. -/
def input_redirecting (count : Nat) (arglist0 : List (Option String)) : M Int := do
  let arglist := arglist0.set (count - 2) none
  let pid ← fork
  CHECK_FORK_STATUS pid
  (if pid = CHILD then do
    SIGNAL_HANDLER
    let input_fd ← openFile (slot arglist (count - 1)) O_RDONLY
    (if input_fd = FAIL then do
      perror OPEN_ERROR
      exit 1
    else pure ())
    let dup_status ← dup2 input_fd 0
    close input_fd
    CHECK_DUP_STATUS dup_status
    let exec_status ← execvp (slot arglist 0) arglist
    CHECK_EXEC_STATUS exec_status
  else pure ())
  let wait_status ← waitpid pid 0
  CHECK_WAIT_STATUS wait_status
  ret 1

/-- The loop of `check_for_pipe`, at index `i` with `n` iterations left. -/
def check_for_pipe_loop (arglist : List (Option String)) : Nat → Nat → Int
  | _, 0 => FAIL
  | i, n + 1 =>
    if deref (slot arglist i) = some PIPE then (i : Int)
    else check_for_pipe_loop arglist (i + 1) n

/-- The function `check_for_pipe`: the first index below `count` whose token
begins with `|`, or `FAIL`. -/
def check_for_pipe (count : Nat) (arglist : List (Option String)) : Int :=
  check_for_pipe_loop arglist 0 count

/-- The body of `single_piping`.  The value `pipe_fd` holds the status of
`pipe` and the two descriptors `pipe_fd[0]`, `pipe_fd[1]`. -/
def single_piping (idx : Nat) (arglist0 : List (Option String)) : M Int := do
  let arglist := arglist0.set idx none
  let pipe_fd ← pipe
  (if pipe_fd.1 = FAIL then do
    perror PIPE_ERROR
    ret 0
  else pure ())
  let first_pid ← fork
  CHECK_FORK_STATUS first_pid
  (if first_pid = CHILD then do
    SIGNAL_HANDLER
    close pipe_fd.2.1
    let dup_status ← dup2 pipe_fd.2.2 1
    close pipe_fd.2.2
    CHECK_DUP_STATUS dup_status
    let exec_status ← execvp (slot arglist 0) arglist
    CHECK_EXEC_STATUS exec_status
  else pure ())
  let second_pid ← fork
  CHECK_FORK_STATUS second_pid
  (if second_pid = CHILD then do
    SIGNAL_HANDLER
    close pipe_fd.2.2
    let dup_status ← dup2 pipe_fd.2.1 0
    close pipe_fd.2.1
    CHECK_DUP_STATUS dup_status
    let exec_status ← execvp (slot arglist (idx + 1)) (arglist.drop (idx + 1))
    CHECK_EXEC_STATUS exec_status
  else pure ())
  close pipe_fd.2.1
  close pipe_fd.2.2
  let first_wait_status ← waitpid first_pid 0
  CHECK_WAIT_STATUS first_wait_status
  let second_wait_status ← waitpid second_pid 0
  CHECK_WAIT_STATUS second_wait_status
  ret 1

/-- The body of `executing_commands`. -/
def executing_commands (arglist : List (Option String)) : M Int := do
  let pid ← fork
  CHECK_FORK_STATUS pid
  (if pid = CHILD then do
    SIGNAL_HANDLER
    let exec_status ← execvp (slot arglist 0) arglist
    CHECK_EXEC_STATUS exec_status
  else pure ())
  let wait_status ← waitpid pid 0
  CHECK_WAIT_STATUS wait_status
  ret 1

/-- The body of `process_arglist`.  Its contract has `count >= 1`, so that
`count - 1` is the index of the last token; `count - 2` is read only after the
test `count >= 2`. -/
def process_arglist (count : Nat) (arglist : List (Option String)) : M Int :=
  if deref (slot arglist (count - 1)) = some AMPERSAND then
    executing_commands_in_the_background count arglist
  else if count ≥ 2 ∧ slot arglist (count - 2) ≠ none
      ∧ deref (slot arglist (count - 2)) = some REDIRECT then
    input_redirecting count arglist
  else
    let idx := check_for_pipe count arglist
    if idx ≠ FAIL then single_piping idx.toNat arglist
    else executing_commands arglist

/-- The `do ... while (pid > 0)` loop of `finalize`; `fuel` bounds the number
of iterations, and `none` means the bound was reached. -/
def finalize : Nat → Proc → Option (Step Int)
  | 0, _ => none
  | fuel + 1, p =>
    match waitpid (-1) WNOHANG p with
    | Step.done o q => some (Step.done o q)
    | Step.next pid q =>
      if pid = -1 ∧ q.errno ≠ ECHILD then
        some ((do perror FINALIZE_WAIT_ERROR; ret 1) q)
      else if pid > 0 then finalize fuel q
      else some (ret 0 q)

/-! ## Sample kernels and states -/

def os0 : OS where
  fork_ret := fun n => 100 + n
  waitpid_ret := fun n => (100 + n, 0)
  signal_err := fun _ => false
  pipe_ret := some (3, 4)
  open_ret := 3
  dup2_fails := false
  execvp_fails := false

def fds0 : Int → Option Obj := fun fd =>
  if fd = 0 then some (Obj.inherited 0)
  else if fd = 1 then some (Obj.inherited 1)
  else if fd = 2 then some (Obj.inherited 2)
  else none

/-- A descriptor table in which descriptor 0 is closed. -/
def fdsNoStdin : Int → Option Obj := fun fd =>
  if fd = 1 then some (Obj.inherited 1)
  else if fd = 2 then some (Obj.inherited 2)
  else none

def proc0 (os : OS) : Proc where
  os := os
  fds := fds0
  children := []
  errno := 0
  forkDepth := 0
  trace := []

/-! ## Vocabulary of the statements -/

/-- A failure that the shell process reports: a failed `fork`, a failed `pipe`,
or a `waitpid` that failed with an error other than `EINTR` and `ECHILD`. -/
def reportedFailure : Event → Bool
  | Event.fork r => decide (r = -1)
  | Event.pipe r _ _ => decide (r = -1)
  | Event.waitpid _ _ r e => decide (r = -1 ∧ e ≠ EINTR ∧ e ≠ ECHILD)
  | _ => false

def isFork : Event → Bool
  | Event.fork _ => true
  | _ => false

/-- What a run that stays in the calling process does: it returns, with `0`
after a reported failure (the diagnostic being its last call) and `1` otherwise. -/
def ParentRun (p : Proc) (r : Step Int) : Prop :=
  ∃ evs, r.proc.trace = p.trace ++ evs ∧
    r.outcome = some (Outcome.returned (if evs.any reportedFailure then 0 else 1)) ∧
    (evs.any reportedFailure = true → ∃ msg, evs.getLast? = some (Event.perror msg))

/-- How a run that continued in a child ends. -/
def childEnd (trace : List Event) : Option Outcome → Prop
  | some (Outcome.replaced f a) =>
      f ≠ none ∧ trace.getLast? = some (Event.execvp f a ExecAnswer.replaced)
  | some (Outcome.exited s) => s = 1 ∧ trace.getLast? = some (Event.exit 1)
      ∧ ∃ msg, trace.dropLast.getLast? = some (Event.perror msg)
  | some Outcome.killed => ∃ a, trace.getLast? = some (Event.execvp none a ExecAnswer.killed)
  | _ => False

/-- What a run that continued in a child does: it never forks, and it ends in a
successful `execvp`, in a diagnostic followed by `exit(1)`, or killed inside
`execvp` called with the `NULL` file pointer. -/
def ChildRun (r : Step Int) : Prop :=
  r.proc.trace.all (fun e => !isFork e) = true ∧ childEnd r.proc.trace r.outcome

def RunSpec (p : Proc) (r : Step Int) : Prop :=
  (r.proc.forkDepth = p.forkDepth ∧ ParentRun p r)
  ∨ (r.proc.forkDepth = p.forkDepth + 1 ∧ ChildRun r)

/-- A `waitpid` answer that `CHECK_WAIT_STATUS` reports: `-1` with an error
other than `EINTR` and `ECHILD`. -/
def waitReported (w : Int × Int) : Prop := w.1 = -1 ∧ w.2 ≠ EINTR ∧ w.2 ≠ ECHILD

instance (w : Int × Int) : Decidable (waitReported w) := by
  unfold waitReported; infer_instance

/-- The `k`-th call of `finalize`. -/
def reapCall (os : OS) (k : Nat) : Event :=
  Event.waitpid (-1) WNOHANG (os.waitpid_ret k).1 (os.waitpid_ret k).2

/-- The answer that makes `finalize` report: `-1` with an error other than
`ECHILD`. -/
def reapReported (w : Int × Int) : Prop := w.1 = -1 ∧ w.2 ≠ ECHILD

instance (w : Int × Int) : Decidable (reapReported w) := by
  unfold reapReported; infer_instance

/-! # Theorems -/

/-! ## Running code -/

@[simp] theorem M.bind_run {α β : Type} (m : M α) (f : α → M β) (p : Proc) :
    (m >>= f) p = match m p with
      | Step.next a q => f a q
      | Step.done o q => Step.done o q := rfl

@[simp] theorem M.pure_run {α : Type} (a : α) (p : Proc) :
    (Pure.pure a : M α) p = Step.next a p := rfl

/-! ## The argument vector -/

theorem slot_mkArglist (tokens : List String) (i : Nat) :
    slot (mkArglist tokens) i = tokens[i]? := by
  unfold slot mkArglist
  rw [List.getD_eq_getElem?_getD]
  rcases Nat.lt_trichotomy i tokens.length with h | h | h
  · simp [List.getElem?_append_left, h]
  · subst h
    simp
  · rw [List.getElem?_eq_none (by simp; omega), List.getElem?_eq_none (by omega)]
    rfl

theorem deref_eq_map (x : Option String) : deref x = x.map headChar := by
  cases x <;> rfl

theorem argvOf_append_none (l : List String) (rest : List (Option String)) :
    argvOf (l.map some ++ none :: rest) = l := by
  induction l with
  | nil => rfl
  | cons a l ih => simp [argvOf, ih]

theorem argvOf_mkArglist (tokens : List String) : argvOf (mkArglist tokens) = tokens :=
  argvOf_append_none tokens []

theorem set_mkArglist (tokens : List String) (i : Nat) (h : i < tokens.length) :
    (mkArglist tokens).set i none
      = (tokens.take i).map some ++ none :: mkArglist (tokens.drop (i + 1)) := by
  induction tokens generalizing i with
  | nil => simp at h
  | cons a ts ih =>
    cases i with
    | zero => simp [mkArglist]
    | succ i =>
      have h2 : i < ts.length := by simpa using h
      have := ih i h2
      simp only [mkArglist] at this ⊢
      simp [this]

theorem argvOf_set (tokens : List String) (i : Nat) (h : i < tokens.length) :
    argvOf ((mkArglist tokens).set i none) = tokens.take i := by
  rw [set_mkArglist tokens i h, argvOf_append_none]

theorem argvOf_drop_set (tokens : List String) (i : Nat) (h : i < tokens.length) :
    argvOf (((mkArglist tokens).set i none).drop (i + 1)) = tokens.drop (i + 1) := by
  rw [set_mkArglist tokens i h]
  have hlen : ((tokens.take i).map some ++ [none]).length = i + 1 := by simp; omega
  have : (List.map some (List.take i tokens) ++ none :: mkArglist (List.drop (i + 1) tokens))
      = (List.map some (List.take i tokens) ++ [none]) ++ mkArglist (List.drop (i + 1) tokens) := by
    simp
  rw [this, List.drop_left' hlen, argvOf_mkArglist]

theorem slot_set_zero (tokens : List String) (i : Nat) (h : i < tokens.length) :
    slot ((mkArglist tokens).set i none) 0 = (tokens.take i).head? := by
  rw [set_mkArglist tokens i h]
  cases i with
  | zero => simp [slot]
  | succ i =>
    cases tokens with
    | nil => simp at h
    | cons a ts => simp [slot]

theorem slot_set_succ (tokens : List String) (i : Nat) :
    slot ((mkArglist tokens).set i none) (i + 1) = (tokens.drop (i + 1)).head? := by
  unfold slot
  rw [List.getD_eq_getElem?_getD, List.getElem?_set_ne (by omega), ← List.getD_eq_getElem?_getD]
  have := slot_mkArglist tokens (i + 1)
  unfold slot at this
  rw [this, List.head?_drop]

theorem slot_set_last (tokens : List String) (i j : Nat) (h : i ≠ j) :
    slot ((mkArglist tokens).set i none) j = tokens[j]? := by
  unfold slot
  rw [List.getD_eq_getElem?_getD, List.getElem?_set_ne h, ← List.getD_eq_getElem?_getD]
  exact slot_mkArglist tokens j

/-! ## The pipe detector -/

theorem check_for_pipe_loop_spec (pre ts : List String) :
    check_for_pipe_loop (mkArglist (pre ++ ts)) pre.length ts.length
      = if ∃ t ∈ ts, headChar t = PIPE then
          ((pre.length + ts.findIdx (fun t => decide (headChar t = PIPE)) : Nat) : Int)
        else -1 := by
  induction ts generalizing pre with
  | nil => simp [check_for_pipe_loop, FAIL]
  | cons t ts ih =>
    have hslot : slot (mkArglist (pre ++ t :: ts)) pre.length = some t := by
      rw [slot_mkArglist, List.getElem?_append_right (le_refl _)]; simp
    simp only [List.length_cons, check_for_pipe_loop, hslot, deref]
    by_cases ht : headChar t = PIPE
    · simp [ht, List.findIdx_cons]
    · have := ih (pre ++ [t])
      simp only [List.append_assoc, List.singleton_append, List.length_append,
        List.length_singleton] at this
      simp only [Option.some.injEq, ht, if_false, this, List.findIdx_cons]
      simp [ht]
      split_ifs
      · omega
      · rfl

theorem check_for_pipe_spec (tokens : List String) :
    check_for_pipe tokens.length (mkArglist tokens)
      = if ∃ t ∈ tokens, headChar t = PIPE then
          ((tokens.findIdx (fun t => decide (headChar t = PIPE)) : Nat) : Int)
        else -1 := by
  have := check_for_pipe_loop_spec [] tokens
  simpa [check_for_pipe] using this

/-- The dispatcher classifies by the first character of the deciding tokens. -/
theorem process_arglist_eq (tokens : List String) :
    process_arglist tokens.length (mkArglist tokens)
      = if tokens.getLast?.map headChar = some AMPERSAND then
          executing_commands_in_the_background tokens.length (mkArglist tokens)
        else if 2 ≤ tokens.length ∧ tokens[tokens.length - 2]?.map headChar = some REDIRECT then
          input_redirecting tokens.length (mkArglist tokens)
        else if ∃ t ∈ tokens, headChar t = PIPE then
          single_piping (tokens.findIdx (fun t => decide (headChar t = PIPE))) (mkArglist tokens)
        else executing_commands (mkArglist tokens) := by
  unfold process_arglist
  rw [slot_mkArglist, slot_mkArglist, deref_eq_map, deref_eq_map, ← List.getLast?_eq_getElem?,
    check_for_pipe_spec]
  by_cases h1 : tokens.getLast?.map headChar = some AMPERSAND
  · simp [h1]
  simp only [h1, if_false]
  by_cases h2 : 2 ≤ tokens.length ∧ tokens[tokens.length - 2]?.map headChar = some REDIRECT
  · have h3 : tokens[tokens.length - 2]? ≠ none := by
      intro h; rw [h] at h2; simp at h2
    simp [h2, h3]
  have h2b : ¬ (tokens.length ≥ 2 ∧ tokens[tokens.length - 2]? ≠ none
      ∧ tokens[tokens.length - 2]?.map headChar = some REDIRECT) := by
    intro h; exact h2 ⟨h.1, h.2.2⟩
  simp only [h2, h2b, if_false]
  by_cases h3 : ∃ t ∈ tokens, headChar t = PIPE
  · simp [h3, FAIL]
  · simp [h3, FAIL]

theorem findIdx_congr_mem {α : Type} (p q : α → Bool) (l : List α)
    (h : ∀ x ∈ l, p x = q x) : l.findIdx p = l.findIdx q := by
  induction l with
  | nil => rfl
  | cons a l ih =>
    have ha : p a = q a := h a (by simp)
    have hl : ∀ x ∈ l, p x = q x := fun x hx => h x (by simp [hx])
    simp [List.findIdx_cons, ha, ih hl]

theorem eq_of_headChar {tokens : List String} {c : Char} {m : String}
    (hm : headChar m = c)
    (hmark : ∀ t ∈ tokens, headChar t = c → t = m) (x : Option String)
    (hx : ∀ t, x = some t → t ∈ tokens) :
    x.map headChar = some c ↔ x = some m := by
  cases x with
  | none => simp
  | some t =>
    simp only [Option.map_some', Option.some.injEq]
    constructor
    · intro h; exact hmark t (hx t rfl) h
    · intro h; rw [h, hm]

/-! ## Dispatch -/

/-- C1: on a token list of count >= 1 in which every token that begins with
`&`, `<` or `|` is exactly that marker, `check_for_pipe` returns the least index
of a token equal to `"|"` (and `-1` exactly when there is none), and
`process_arglist` runs exactly one executor, chosen in the priority order
background, redirect, pipeline (at that least index), plain. -/
theorem dispatch_priority (tokens : List String) (hne : tokens ≠ [])
    (hmark : ∀ t ∈ tokens, (headChar t = AMPERSAND → t = "&") ∧
      (headChar t = REDIRECT → t = "<") ∧ (headChar t = PIPE → t = "|")) :
    (check_for_pipe tokens.length (mkArglist tokens)
        = if "|" ∈ tokens then ((tokens.indexOf "|" : Nat) : Int) else -1)
    ∧ (∀ i : Nat, check_for_pipe tokens.length (mkArglist tokens) = (i : Int) →
        tokens[i]? = some "|" ∧ ∀ j < i, tokens[j]? ≠ some "|")
    ∧ (check_for_pipe tokens.length (mkArglist tokens) = -1 ↔ "|" ∉ tokens)
    ∧ process_arglist tokens.length (mkArglist tokens)
        = if tokens.getLast? = some "&" then
            executing_commands_in_the_background tokens.length (mkArglist tokens)
          else if 2 ≤ tokens.length ∧ tokens[tokens.length - 2]? = some "<" then
            input_redirecting tokens.length (mkArglist tokens)
          else if "|" ∈ tokens then
            single_piping (tokens.indexOf "|") (mkArglist tokens)
          else executing_commands (mkArglist tokens) := by
  have _ := hne
  have hpipe : (∃ t ∈ tokens, headChar t = PIPE) ↔ "|" ∈ tokens := by
    constructor
    · rintro ⟨t, ht, hc⟩
      have := (hmark t ht).2.2 hc
      rw [← this]; exact ht
    · intro h; exact ⟨"|", h, rfl⟩
  have hidx : tokens.findIdx (fun t => decide (headChar t = PIPE)) = tokens.indexOf "|" := by
    unfold List.indexOf
    apply findIdx_congr_mem
    intro t ht
    by_cases hc : headChar t = PIPE
    · have hp : headChar "|" = PIPE := rfl
      simp [(hmark t ht).2.2 hc, hp]
    · have : t ≠ "|" := by
        intro h; apply hc; rw [h]; rfl
      simp [hc, this]
  have hcheck : check_for_pipe tokens.length (mkArglist tokens)
      = if "|" ∈ tokens then ((tokens.indexOf "|" : Nat) : Int) else -1 := by
    rw [check_for_pipe_spec, hidx]
    simp only [hpipe]
  refine ⟨hcheck, ?_, ?_, ?_⟩
  · intro i hi
    rw [hcheck] at hi
    by_cases hmem : "|" ∈ tokens
    · simp only [hmem, if_true] at hi
      have hi2 : tokens.indexOf "|" = i := by exact_mod_cast hi
      subst hi2
      constructor
      · have hlt := List.indexOf_lt_length.mpr hmem
        rw [List.getElem?_eq_getElem hlt]
        simp
      · intro j hj hjeq
        have hjlt : j < tokens.length := by
          rcases Nat.lt_or_ge j tokens.length with h | h
          · exact h
          · rw [List.getElem?_eq_none h] at hjeq; simp at hjeq
        rw [List.getElem?_eq_getElem hjlt] at hjeq
        simp only [Option.some.injEq] at hjeq
        have := @List.not_of_lt_findIdx _ (fun t => t == "|") tokens j hj
        simp [hjeq] at this
    · simp only [hmem, if_false] at hi
      omega
  · rw [hcheck]
    by_cases hmem : "|" ∈ tokens
    · simp only [hmem, if_true, not_true_eq_false, iff_false]
      omega
    · simp [hmem]
  · rw [process_arglist_eq]
    have h1 : tokens.getLast?.map headChar = some AMPERSAND ↔ tokens.getLast? = some "&" :=
      eq_of_headChar (c := AMPERSAND) (m := "&") rfl (fun t ht => (hmark t ht).1) _
        (fun t ht => List.mem_of_getLast?_eq_some ht)
    have h2 : tokens[tokens.length - 2]?.map headChar = some REDIRECT
        ↔ tokens[tokens.length - 2]? = some "<" :=
      eq_of_headChar (c := REDIRECT) (m := "<") rfl (fun t ht => (hmark t ht).2.1) _
        (fun t ht => List.getElem?_mem ht)
    simp only [h1, h2, hpipe, hidx]

/-- C1, at the tokens `ls | wc`. -/
theorem dispatch_priority_witness :
    check_for_pipe 3 (mkArglist ["ls", "|", "wc"]) = 1
    ∧ process_arglist 3 (mkArglist ["ls", "|", "wc"])
        = single_piping 1 (mkArglist ["ls", "|", "wc"]) := by
  have h := dispatch_priority ["ls", "|", "wc"] (by decide) (by decide)
  refine ⟨?_, ?_⟩
  · have := h.1
    simpa using this
  · have := h.2.2.2
    simpa using this

/-- C10, as the code has it: `process_arglist` recognises a marker by the FIRST
CHARACTER of the deciding token.  On every token list of count >= 1 it runs the
background executor exactly when the last token begins with `&`; otherwise the
redirect executor exactly when count >= 2 and the second-to-last token begins
with `<`; otherwise the pipeline executor exactly when some token begins with
`|` (at the first such token); otherwise the plain executor.  A marker character
anywhere else in a token plays no part. -/
theorem dispatch_by_first_character (tokens : List String) (hne : tokens ≠ []) :
    process_arglist tokens.length (mkArglist tokens)
      = if tokens.getLast?.map headChar = some AMPERSAND then
          executing_commands_in_the_background tokens.length (mkArglist tokens)
        else if 2 ≤ tokens.length ∧ tokens[tokens.length - 2]?.map headChar = some REDIRECT then
          input_redirecting tokens.length (mkArglist tokens)
        else if ∃ t ∈ tokens, headChar t = PIPE then
          single_piping (tokens.findIdx (fun t => decide (headChar t = PIPE))) (mkArglist tokens)
        else executing_commands (mkArglist tokens) := by
  have _ := hne
  exact process_arglist_eq tokens

/-- C10, at the tokens `ls x&`: a marker character that is not first leaves the
plain executor selected. -/
theorem dispatch_by_first_character_witness :
    process_arglist 2 (mkArglist ["ls", "x&"]) = executing_commands (mkArglist ["ls", "x&"]) := by
  have h := dispatch_by_first_character ["ls", "x&"] (by decide)
  have h1 : ¬ (["ls", "x&"].getLast?.map headChar = some AMPERSAND) := by decide
  have h2 : ¬ (2 ≤ ["ls", "x&"].length
      ∧ (["ls", "x&"])[["ls", "x&"].length - 2]?.map headChar = some REDIRECT) := by decide
  have h3 : ¬ (∃ t ∈ ["ls", "x&"], headChar t = PIPE) := by decide
  rw [if_neg h1, if_neg h2, if_neg h3] at h
  exact h

/-- C10 as stated fails: with the tokens `ls &x` the last token is not `"&"`,
yet the background executor runs; the child executes `ls` with the argument
vector `[ls]`, so `&x` is not passed as a literal argument. -/
theorem longer_token_selects_background :
    process_arglist 2 (mkArglist ["ls", "&x"])
        = executing_commands_in_the_background 2 (mkArglist ["ls", "&x"])
    ∧ (process_arglist 2 (mkArglist ["ls", "&x"])
        (proc0 { os0 with fork_ret := fun _ => 0 })).outcome
        = some (Outcome.replaced (some "ls") ["ls"])
    ∧ (["ls", "&x"] : List String).getLast? ≠ some "&" := by
  refine ⟨?_, ?_, ?_⟩
  · rfl
  · decide
  · decide

/-! ## Runs in the shell process and runs in a child -/

theorem executing_commands_run (arglist : List (Option String)) (p : Proc) :
    RunSpec p (executing_commands arglist p) := by
  generalize hr : executing_commands arglist p = r
  simp [executing_commands, pipe, close, dup2, openFile, CHECK_DUP_STATUS, PIPE_ERROR, OPEN_ERROR, fork, CHECK_FORK_STATUS, FAIL, perror, ret, CHILD, SIGNAL_HANDLER, signal, execvp, execAnswer, CHECK_EXEC_STATUS, exit, waitpid, CHECK_WAIT_STATUS, getErrno, Proc.log] at hr
  repeat' (split_ifs at hr <;> try simp [pipe, close, dup2, openFile, CHECK_DUP_STATUS, PIPE_ERROR, OPEN_ERROR, fork, CHECK_FORK_STATUS, FAIL, perror, ret, CHILD, SIGNAL_HANDLER, signal, execvp, execAnswer, CHECK_EXEC_STATUS, exit, waitpid, CHECK_WAIT_STATUS, getErrno, Proc.log, *] at hr)
  all_goals
    subst hr
    simp [RunSpec, ParentRun, ChildRun, reportedFailure, isFork, childEnd, Step.outcome, Step.proc, *]
  all_goals omega

theorem background_run (count : Nat) (arglist : List (Option String)) (p : Proc) :
    RunSpec p (executing_commands_in_the_background count arglist p) := by
  generalize hr : executing_commands_in_the_background count arglist p = r
  simp [executing_commands_in_the_background, pipe, close, dup2, openFile, CHECK_DUP_STATUS, PIPE_ERROR, OPEN_ERROR, fork, CHECK_FORK_STATUS, FAIL, perror, ret, CHILD, SIGNAL_HANDLER, signal, execvp, execAnswer, CHECK_EXEC_STATUS, exit, waitpid, CHECK_WAIT_STATUS, getErrno, Proc.log] at hr
  repeat' (split_ifs at hr <;> try simp [pipe, close, dup2, openFile, CHECK_DUP_STATUS, PIPE_ERROR, OPEN_ERROR, fork, CHECK_FORK_STATUS, FAIL, perror, ret, CHILD, SIGNAL_HANDLER, signal, execvp, execAnswer, CHECK_EXEC_STATUS, exit, waitpid, CHECK_WAIT_STATUS, getErrno, Proc.log, *] at hr)
  all_goals
    subst hr
    simp [RunSpec, ParentRun, ChildRun, reportedFailure, isFork, childEnd, Step.outcome, Step.proc, *]

theorem input_redirecting_run (count : Nat) (arglist : List (Option String)) (p : Proc) :
    RunSpec p (input_redirecting count arglist p) := by
  generalize hr : input_redirecting count arglist p = r
  simp [input_redirecting, pipe, close, dup2, openFile, CHECK_DUP_STATUS, PIPE_ERROR, OPEN_ERROR, fork, CHECK_FORK_STATUS, FAIL, perror, ret, CHILD, SIGNAL_HANDLER, signal, execvp, execAnswer, CHECK_EXEC_STATUS, exit, waitpid, CHECK_WAIT_STATUS, getErrno, Proc.log] at hr
  repeat' (split_ifs at hr <;> try simp [pipe, close, dup2, openFile, CHECK_DUP_STATUS, PIPE_ERROR, OPEN_ERROR, fork, CHECK_FORK_STATUS, FAIL, perror, ret, CHILD, SIGNAL_HANDLER, signal, execvp, execAnswer, CHECK_EXEC_STATUS, exit, waitpid, CHECK_WAIT_STATUS, getErrno, Proc.log, *] at hr)
  all_goals
    subst hr
    simp [RunSpec, ParentRun, ChildRun, reportedFailure, isFork, childEnd, Step.outcome, Step.proc, *]
  all_goals omega

set_option maxHeartbeats 1000000 in
theorem single_piping_run (idx : Nat) (arglist : List (Option String)) (p : Proc) :
    RunSpec p (single_piping idx arglist p) := by
  generalize hr : single_piping idx arglist p = r
  rcases hp : p.os.pipe_ret with _ | ⟨rd, wr⟩
  · simp [single_piping, pipe, close, dup2, openFile, CHECK_DUP_STATUS, PIPE_ERROR, OPEN_ERROR, fork, CHECK_FORK_STATUS, FAIL, perror, ret, CHILD, SIGNAL_HANDLER, signal, execvp, execAnswer, CHECK_EXEC_STATUS, exit, waitpid, CHECK_WAIT_STATUS, getErrno, Proc.log, hp] at hr
    subst hr
    simp [RunSpec, ParentRun, ChildRun, reportedFailure, isFork, childEnd, Step.outcome, Step.proc]
  simp [single_piping, pipe, close, dup2, openFile, CHECK_DUP_STATUS, PIPE_ERROR, OPEN_ERROR, fork, CHECK_FORK_STATUS, FAIL, perror, ret, CHILD, SIGNAL_HANDLER, signal, execvp, execAnswer, CHECK_EXEC_STATUS, exit, waitpid, CHECK_WAIT_STATUS, getErrno, Proc.log, hp] at hr
  repeat' (split_ifs at hr <;> try simp [pipe, close, dup2, openFile, CHECK_DUP_STATUS, PIPE_ERROR, OPEN_ERROR, fork, CHECK_FORK_STATUS, FAIL, perror, ret, CHILD, SIGNAL_HANDLER, signal, execvp, execAnswer, CHECK_EXEC_STATUS, exit, waitpid, CHECK_WAIT_STATUS, getErrno, Proc.log, *] at hr)
  all_goals
    subst hr
    simp [RunSpec, ParentRun, ChildRun, reportedFailure, isFork, childEnd, Step.outcome, Step.proc, *]
  all_goals omega

theorem process_arglist_run (count : Nat) (arglist : List (Option String)) (p : Proc) :
    RunSpec p (process_arglist count arglist p) := by
  simp only [process_arglist]
  split_ifs
  · exact background_run count arglist p
  · exact input_redirecting_run count arglist p
  · exact single_piping_run _ arglist p
  · exact executing_commands_run arglist p

/-- C2, as the code has it: a run of `process_arglist` that stays in the shell
process always returns, and the value is `1` (continue) unless a `fork` failed,
the `pipe` call failed, or a `waitpid` failed with an error other than `EINTR`
and `ECHILD`; in those cases the last call is the `perror` diagnostic and the
value returned is `0` (stop). -/
theorem parent_return_value (tokens : List String) (p : Proc) (hne : tokens ≠ [])
    (hpar : (process_arglist tokens.length (mkArglist tokens) p).proc.forkDepth = p.forkDepth) :
    ∃ evs, (process_arglist tokens.length (mkArglist tokens) p).proc.trace = p.trace ++ evs ∧
      (process_arglist tokens.length (mkArglist tokens) p).outcome
        = some (Outcome.returned (if evs.any reportedFailure then 0 else 1)) ∧
      (evs.any reportedFailure = true → ∃ msg, evs.getLast? = some (Event.perror msg)) := by
  have _ := hne
  rcases process_arglist_run tokens.length (mkArglist tokens) p with h | h
  · exact h.2
  · omega

/-- C2 amended, at the tokens `ls` with every call succeeding. -/
theorem parent_return_value_witness :
    ∃ evs, (process_arglist 1 (mkArglist ["ls"]) (proc0 os0)).proc.trace
        = (proc0 os0).trace ++ evs ∧
      (process_arglist 1 (mkArglist ["ls"]) (proc0 os0)).outcome
        = some (Outcome.returned (if evs.any reportedFailure then 0 else 1)) ∧
      (evs.any reportedFailure = true → ∃ msg, evs.getLast? = some (Event.perror msg)) :=
  parent_return_value ["ls"] (proc0 os0) (by decide) (by decide)

/-- C2 as stated fails: with the tokens `ls` and a failing `fork`, the run stays
in the shell process and `process_arglist` returns the stop value `0`. -/
theorem failed_fork_returns_stop :
    (process_arglist 1 (mkArglist ["ls"])
        (proc0 { os0 with fork_ret := fun _ => -1 })).outcome = some (Outcome.returned 0)
    ∧ (process_arglist 1 (mkArglist ["ls"])
        (proc0 { os0 with fork_ret := fun _ => -1 })).proc.forkDepth = 0
    ∧ (process_arglist 1 (mkArglist ["ls"])
        (proc0 { os0 with fork_ret := fun _ => -1 })).proc.trace
        = [Event.fork (-1), Event.perror "Error while forking"] := by
  decide

/-- C9, as the code has it: a run of `process_arglist` that continued in a
child of `fork` never returns to the caller.  Whatever the answers to `signal`,
`open`, `dup2` and `execvp`, the run is in a direct child (exactly one `fork`
answered `0`), that child calls `fork` no more, and it ends in one of three
ways: in a successful `execvp` of a file name (its image is replaced), in a
`perror` diagnostic followed by `exit(1)`, or, when the command is empty so that
the file pointer handed to `execvp` is the terminator, killed inside that call. -/
theorem child_never_returns (tokens : List String) (p : Proc) (hne : tokens ≠ [])
    (hchild : (process_arglist tokens.length (mkArglist tokens) p).proc.forkDepth
      ≠ p.forkDepth) :
    (process_arglist tokens.length (mkArglist tokens) p).proc.forkDepth = p.forkDepth + 1
    ∧ (∀ v, (process_arglist tokens.length (mkArglist tokens) p).outcome
        ≠ some (Outcome.returned v))
    ∧ (∀ e ∈ (process_arglist tokens.length (mkArglist tokens) p).proc.trace,
        ∀ pid, e ≠ Event.fork pid)
    ∧ ((∃ file argv,
          (process_arglist tokens.length (mkArglist tokens) p).outcome
            = some (Outcome.replaced (some file) argv)
          ∧ (process_arglist tokens.length (mkArglist tokens) p).proc.trace.getLast?
            = some (Event.execvp (some file) argv ExecAnswer.replaced))
      ∨ ((process_arglist tokens.length (mkArglist tokens) p).outcome
            = some (Outcome.exited 1)
          ∧ (process_arglist tokens.length (mkArglist tokens) p).proc.trace.getLast?
            = some (Event.exit 1)
          ∧ ∃ msg, (process_arglist tokens.length (mkArglist tokens) p).proc.trace.dropLast.getLast?
            = some (Event.perror msg))
      ∨ ((process_arglist tokens.length (mkArglist tokens) p).outcome
            = some Outcome.killed
          ∧ ∃ argv, (process_arglist tokens.length (mkArglist tokens) p).proc.trace.getLast?
            = some (Event.execvp none argv ExecAnswer.killed))) := by
  have _ := hne
  rcases process_arglist_run tokens.length (mkArglist tokens) p with h | h
  · exact absurd h.1 hchild
  · obtain ⟨hdepth, hnofork, hend⟩ := h
    generalize process_arglist tokens.length (mkArglist tokens) p = r at hdepth hnofork hend ⊢
    refine ⟨hdepth, ?_, ?_, ?_⟩
    · intro v hv
      rw [hv] at hend
      exact hend
    · intro e he pid hpid
      have := List.all_eq_true.mp hnofork e he
      rw [hpid] at this
      simp [isFork] at this
    · rcases ho : r.outcome with _ | o
      · rw [ho] at hend; exact hend.elim
      · rw [ho] at hend
        cases o with
        | returned v => exact hend.elim
        | exited s =>
          right; left
          obtain ⟨hs, h1, h2⟩ := hend
          subst hs
          exact ⟨rfl, h1, h2⟩
        | replaced f a =>
          left
          obtain ⟨hf, hlast⟩ := hend
          cases f with
          | none => exact absurd rfl hf
          | some file => exact ⟨file, a, rfl, hlast⟩
        | killed =>
          right; right
          exact ⟨rfl, hend⟩

/-- C9 amended, at the first child of the pipeline `ls | wc` when `execvp`
fails: the child prints the diagnostic and exits with status 1. -/
theorem child_never_returns_witness :
    (process_arglist 3 (mkArglist ["ls", "|", "wc"])
        (proc0 { os0 with fork_ret := fun _ => 0, execvp_fails := true })).outcome
      = some (Outcome.exited 1)
    ∧ ∀ e ∈ (process_arglist 3 (mkArglist ["ls", "|", "wc"])
        (proc0 { os0 with fork_ret := fun _ => 0, execvp_fails := true })).proc.trace,
        ∀ pid, e ≠ Event.fork pid := by
  have h := child_never_returns ["ls", "|", "wc"]
    (proc0 { os0 with fork_ret := fun _ => 0, execvp_fails := true }) (by decide) (by decide)
  refine ⟨by decide, h.2.2.1⟩

/-- C9 as stated fails: with the tokens `| wc` the first pipeline child hands
`execvp` the terminator that replaced the marker; it is killed inside that
call, so its image is not replaced and it neither prints a diagnostic nor exits
with status 1. -/
theorem empty_command_child_is_killed :
    (process_arglist 2 (mkArglist ["|", "wc"])
        (proc0 { os0 with fork_ret := fun _ => 0 })).outcome = some Outcome.killed
    ∧ (process_arglist 2 (mkArglist ["|", "wc"])
        (proc0 { os0 with fork_ret := fun _ => 0 })).proc.trace
      = [Event.signal Sig.SIGINT Handler.SIG_DFL false,
         Event.signal Sig.SIGCHLD Handler.SIG_DFL false,
         Event.close 3, Event.dup2 4 1 1, Event.close 4,
         Event.execvp none [] ExecAnswer.killed] := by
  decide

/-! ## Background mode -/

/-- C3, as the code has it: when the last token is `"&"`, `process_arglist`
replaces that slot with the terminator.  The child (signal resets succeeding)
calls `execvp` with the argument vector `tokens[0 .. count-2]` and, for
count >= 2, with the file `tokens[0]`, which is then executed or reported with
`exit(1)`; for count = 1 the only slot is the marker itself, the file pointer
passed is the terminator, and the child is killed inside the call.  When `fork`
succeeds the parent makes no call after the `fork` (so no wait) and returns
`1`. -/
theorem background_mode (tokens : List String) (p : Proc) (hne : tokens ≠ [])
    (hlast : tokens.getLast? = some "&") :
    (p.os.fork_ret 0 = 0 → p.os.signal_err 0 = false → p.os.signal_err 1 = false →
      (process_arglist tokens.length (mkArglist tokens) p).proc.trace
        = [Event.signal Sig.SIGINT Handler.SIG_DFL false,
           Event.signal Sig.SIGCHLD Handler.SIG_DFL false,
           Event.execvp tokens.dropLast.head? tokens.dropLast
             (execAnswer p.os tokens.dropLast.head?)]
          ++ (if execAnswer p.os tokens.dropLast.head? = ExecAnswer.failed then
                [Event.perror "Error while executing the command", Event.exit 1]
              else [])
      ∧ (process_arglist tokens.length (mkArglist tokens) p).outcome
        = some (match execAnswer p.os tokens.dropLast.head? with
                | ExecAnswer.replaced => Outcome.replaced tokens.dropLast.head? tokens.dropLast
                | ExecAnswer.failed => Outcome.exited 1
                | ExecAnswer.killed => Outcome.killed))
    ∧ (2 ≤ tokens.length → tokens.dropLast.head? = tokens[0]?
        ∧ execAnswer p.os tokens.dropLast.head?
          = if p.os.execvp_fails then ExecAnswer.failed else ExecAnswer.replaced)
    ∧ (tokens.length = 1 → tokens.dropLast.head? = none
        ∧ execAnswer p.os tokens.dropLast.head? = ExecAnswer.killed)
    ∧ (p.os.fork_ret 0 ≠ 0 → p.os.fork_ret 0 ≠ -1 →
        (process_arglist tokens.length (mkArglist tokens) p).outcome
          = some (Outcome.returned 1)
        ∧ (process_arglist tokens.length (mkArglist tokens) p).proc.trace
          = p.trace ++ [Event.fork (p.os.fork_ret 0)]) := by
  have hlen : 0 < tokens.length := List.length_pos.mpr hne
  have hbg : tokens.getLast?.map headChar = some AMPERSAND := by rw [hlast]; rfl
  have hargv : argvOf ((mkArglist tokens).set (tokens.length - 1) none) = tokens.dropLast := by
    rw [argvOf_set tokens _ (by omega), List.dropLast_eq_take]
  have hfile : slot ((mkArglist tokens).set (tokens.length - 1) none) 0
      = tokens.dropLast.head? := by
    rw [slot_set_zero tokens _ (by omega), List.dropLast_eq_take]
  rw [process_arglist_eq, if_pos hbg]
  refine ⟨?_, ?_, ?_, ?_⟩
  · intro hf hs0 hs1
    simp [executing_commands_in_the_background, pipe, close, dup2, openFile, CHECK_DUP_STATUS, PIPE_ERROR, OPEN_ERROR, fork, CHECK_FORK_STATUS, FAIL, perror, ret, CHILD, SIGNAL_HANDLER, signal, execvp, execAnswer, CHECK_EXEC_STATUS, exit, waitpid, CHECK_WAIT_STATUS, getErrno, Proc.log, Step.outcome, Step.proc, hf, hs0, hs1, hargv, hfile]
    split_ifs <;> simp [pipe, close, dup2, openFile, CHECK_DUP_STATUS, PIPE_ERROR, OPEN_ERROR, fork, CHECK_FORK_STATUS, FAIL, perror, ret, CHILD, SIGNAL_HANDLER, signal, execvp, execAnswer, CHECK_EXEC_STATUS, exit, waitpid, CHECK_WAIT_STATUS, getErrno, Proc.log, Step.outcome, Step.proc, *]
    all_goals simp_all
  · intro h2
    have hh : tokens.dropLast.head? = tokens[0]? := by
      rw [List.head?_dropLast, if_pos (by omega), List.head?_eq_getElem?]
    refine ⟨hh, ?_⟩
    rw [hh, List.getElem?_eq_getElem (by omega)]
    simp [execAnswer]
  · intro h1
    have hh : tokens.dropLast.head? = none := by
      rw [List.head?_dropLast, if_neg (by omega)]
    refine ⟨hh, ?_⟩
    rw [hh]
    rfl
  · intro hf0 hf1
    simp [executing_commands_in_the_background, pipe, close, dup2, openFile, CHECK_DUP_STATUS, PIPE_ERROR, OPEN_ERROR, fork, CHECK_FORK_STATUS, FAIL, perror, ret, CHILD, SIGNAL_HANDLER, signal, execvp, execAnswer, CHECK_EXEC_STATUS, exit, waitpid, CHECK_WAIT_STATUS, getErrno, Proc.log, Step.outcome, Step.proc, hf0, hf1]

/-- C3 amended, at the tokens `sleep 5 &`: the child executes `sleep` with the
argument vector `[sleep, 5]`. -/
theorem background_mode_witness :
    (process_arglist 3 (mkArglist ["sleep", "5", "&"])
        (proc0 { os0 with fork_ret := fun _ => 0 })).outcome
      = some (Outcome.replaced (some "sleep") ["sleep", "5"]) := by
  have h := (background_mode ["sleep", "5", "&"] (proc0 { os0 with fork_ret := fun _ => 0 })
    (by decide) (by decide)).1 rfl rfl rfl
  exact h.2

/-- C3 as stated fails for count = 1: with the single token `&` the child does
not execute `tokens[0]`; the file pointer handed to `execvp` is the terminator
that replaced the marker. -/
theorem lone_marker_executes_terminator :
    (process_arglist 1 (mkArglist ["&"])
        (proc0 { os0 with fork_ret := fun _ => 0 })).proc.trace
      = [Event.signal Sig.SIGINT Handler.SIG_DFL false,
         Event.signal Sig.SIGCHLD Handler.SIG_DFL false,
         Event.execvp none [] ExecAnswer.killed]
    ∧ (["&"] : List String)[0]? = some "&" := by
  decide

/-! ## Redirect mode -/

/-- C4, as the code has it: when count >= 2, the second-to-last token is `"<"`
and the last token does not begin with `&` (the background test comes first),
the child (signal resets succeeding) opens exactly the last token read-only;
if that succeeds it duplicates the descriptor onto descriptor 0 and closes it,
and if that succeeds it calls `execvp` with the argument vector
`tokens[0 .. count-3]`. -/
theorem redirect_mode (tokens : List String) (p : Proc) (hlen : 2 ≤ tokens.length)
    (hmark : tokens[tokens.length - 2]? = some "<")
    (hbg : tokens.getLast?.map headChar ≠ some AMPERSAND)
    (hf : p.os.fork_ret 0 = 0)
    (hs0 : p.os.signal_err 0 = false) (hs1 : p.os.signal_err 1 = false) :
    (process_arglist tokens.length (mkArglist tokens) p).proc.trace
      = [Event.signal Sig.SIGINT Handler.SIG_DFL false,
         Event.signal Sig.SIGCHLD Handler.SIG_DFL false,
         Event.openFile tokens.getLast? O_RDONLY p.os.open_ret]
        ++ (if p.os.open_ret = -1 then [Event.perror OPEN_ERROR, Event.exit 1]
            else
              [Event.dup2 p.os.open_ret 0 (if p.os.dup2_fails then -1 else 0),
               Event.close p.os.open_ret]
              ++ (if p.os.dup2_fails then [Event.perror "dup2() failed", Event.exit 1]
                  else
                    [Event.execvp (tokens.take (tokens.length - 2)).head?
                      (tokens.take (tokens.length - 2))
                      (execAnswer p.os (tokens.take (tokens.length - 2)).head?)]
                    ++ (if execAnswer p.os (tokens.take (tokens.length - 2)).head?
                            = ExecAnswer.failed then
                          [Event.perror "Error while executing the command", Event.exit 1]
                        else []))) := by
  have hred : 2 ≤ tokens.length ∧ tokens[tokens.length - 2]?.map headChar = some REDIRECT := by
    refine ⟨hlen, ?_⟩; rw [hmark]; rfl
  have hargv : argvOf ((mkArglist tokens).set (tokens.length - 2) none)
      = tokens.take (tokens.length - 2) := argvOf_set tokens _ (by omega)
  have hfile : slot ((mkArglist tokens).set (tokens.length - 2) none) 0
      = (tokens.take (tokens.length - 2)).head? := slot_set_zero tokens _ (by omega)
  have hpath : slot ((mkArglist tokens).set (tokens.length - 2) none) (tokens.length - 1)
      = tokens.getLast? := by
    rw [slot_set_last tokens _ _ (by omega), List.getLast?_eq_getElem?]
  rw [process_arglist_eq, if_neg hbg, if_pos hred]
  simp [input_redirecting, pipe, close, dup2, openFile, CHECK_DUP_STATUS, PIPE_ERROR, OPEN_ERROR, fork, CHECK_FORK_STATUS, FAIL, perror, ret, CHILD, SIGNAL_HANDLER, signal, execvp, execAnswer, CHECK_EXEC_STATUS, exit, waitpid, CHECK_WAIT_STATUS, getErrno, Proc.log, Step.outcome, Step.proc, hf, hs0, hs1, hargv, hfile, hpath]
  split_ifs <;> simp [pipe, close, dup2, openFile, CHECK_DUP_STATUS, PIPE_ERROR, OPEN_ERROR, fork, CHECK_FORK_STATUS, FAIL, perror, ret, CHILD, SIGNAL_HANDLER, signal, execvp, execAnswer, CHECK_EXEC_STATUS, exit, waitpid, CHECK_WAIT_STATUS, getErrno, Proc.log, Step.outcome, Step.proc, *]
  all_goals simp_all

/-- C4 amended, at the tokens `wc -l < file.txt`. -/
theorem redirect_mode_witness :
    (process_arglist 4 (mkArglist ["wc", "-l", "<", "file.txt"])
        (proc0 { os0 with fork_ret := fun _ => 0 })).proc.trace
      = [Event.signal Sig.SIGINT Handler.SIG_DFL false,
         Event.signal Sig.SIGCHLD Handler.SIG_DFL false,
         Event.openFile (some "file.txt") 0 3,
         Event.dup2 3 0 0,
         Event.close 3,
         Event.execvp (some "wc") ["wc", "-l"] ExecAnswer.replaced] := by
  have h := redirect_mode ["wc", "-l", "<", "file.txt"]
    (proc0 { os0 with fork_ret := fun _ => 0 }) (by decide) (by decide) (by decide) rfl rfl rfl
  exact h

/-- C4 as stated fails: with the tokens `cat < &` the second-to-last token is
`"<"`, yet the background executor runs; the child opens no file and the
argument vector handed to `execvp` contains the marker `<`. -/
theorem redirect_marker_before_background_marker :
    (process_arglist 3 (mkArglist ["cat", "<", "&"])
        (proc0 { os0 with fork_ret := fun _ => 0 })).proc.trace
      = [Event.signal Sig.SIGINT Handler.SIG_DFL false,
         Event.signal Sig.SIGCHLD Handler.SIG_DFL false,
         Event.execvp (some "cat") ["cat", "<"] ExecAnswer.replaced]
    ∧ (["cat", "<", "&"] : List String)[3 - 2]? = some "<" := by
  decide

/-! ## Pipeline mode -/

/-- C5, as the code has it: let `"|"` occur exactly once, at position `i`, in a
token list whose last token does not begin with `&`, whose second-to-last token
does not begin with `<`, and in which no token before position `i` begins with
`|`.  Then (pipe creation, signal resets and `dup2` succeeding) the first child
calls `execvp` with the argument vector `tokens[0 .. i-1]`, the second child
calls it with `tokens[i+1 .. count-1]`, and `"|"` is in neither vector. -/
theorem pipeline_mode (tokens : List String) (p : Proc) (i : Nat) (rd wr : Int)
    (hi : tokens[i]? = some "|")
    (huniq : ∀ j, tokens[j]? = some "|" → j = i)
    (hbg : tokens.getLast?.map headChar ≠ some AMPERSAND)
    (hredir : ¬ (2 ≤ tokens.length ∧ tokens[tokens.length - 2]?.map headChar = some REDIRECT))
    (hfirst : ∀ j < i, tokens[j]?.map headChar ≠ some PIPE)
    (hpipe : p.os.pipe_ret = some (rd, wr))
    (hs0 : p.os.signal_err 0 = false) (hs1 : p.os.signal_err 1 = false)
    (hdup : p.os.dup2_fails = false) :
    (p.os.fork_ret 0 = 0 →
      (process_arglist tokens.length (mkArglist tokens) p).proc.trace
        = [Event.signal Sig.SIGINT Handler.SIG_DFL false,
           Event.signal Sig.SIGCHLD Handler.SIG_DFL false,
           Event.close rd, Event.dup2 wr 1 1, Event.close wr,
           Event.execvp (tokens.take i).head? (tokens.take i)
             (execAnswer p.os (tokens.take i).head?)]
          ++ (if execAnswer p.os (tokens.take i).head? = ExecAnswer.failed then
                [Event.perror "Error while executing the command", Event.exit 1]
              else []))
    ∧ (p.os.fork_ret 0 ≠ 0 → p.os.fork_ret 0 ≠ -1 → p.os.fork_ret 1 = 0 →
      (process_arglist tokens.length (mkArglist tokens) p).proc.trace
        = [Event.signal Sig.SIGINT Handler.SIG_DFL false,
           Event.signal Sig.SIGCHLD Handler.SIG_DFL false,
           Event.close wr, Event.dup2 rd 0 0, Event.close rd,
           Event.execvp (tokens.drop (i + 1)).head? (tokens.drop (i + 1))
             (execAnswer p.os (tokens.drop (i + 1)).head?)]
          ++ (if execAnswer p.os (tokens.drop (i + 1)).head? = ExecAnswer.failed then
                [Event.perror "Error while executing the command", Event.exit 1]
              else []))
    ∧ "|" ∉ tokens.take i ∧ "|" ∉ tokens.drop (i + 1) := by
  have hilt : i < tokens.length := by
    rcases Nat.lt_or_ge i tokens.length with h | h
    · exact h
    · rw [List.getElem?_eq_none h] at hi; simp at hi
  have hget : tokens[i] = "|" := by
    rw [List.getElem?_eq_getElem hilt] at hi
    simpa using hi
  have hex : ∃ t ∈ tokens, headChar t = PIPE :=
    ⟨"|", by rw [← hget]; exact List.getElem_mem hilt, rfl⟩
  have hidx : tokens.findIdx (fun t => decide (headChar t = PIPE)) = i := by
    rw [List.findIdx_eq hilt]
    refine ⟨by rw [hget]; rfl, ?_⟩
    intro j hj
    have := hfirst j hj
    rw [List.getElem?_eq_getElem (by omega)] at this
    simpa using this
  have hargv : argvOf ((mkArglist tokens).set i none) = tokens.take i := argvOf_set tokens i hilt
  have hfile : slot ((mkArglist tokens).set i none) 0 = (tokens.take i).head? :=
    slot_set_zero tokens i hilt
  have hargv2 : argvOf (((mkArglist tokens).set i none).drop (i + 1)) = tokens.drop (i + 1) :=
    argvOf_drop_set tokens i hilt
  have hfile2 : slot ((mkArglist tokens).set i none) (i + 1) = (tokens.drop (i + 1)).head? :=
    slot_set_succ tokens i
  rw [process_arglist_eq, if_neg hbg, if_neg hredir, if_pos hex, hidx]
  refine ⟨?_, ?_, ?_, ?_⟩
  · intro hf
    simp [single_piping, pipe, close, dup2, openFile, CHECK_DUP_STATUS, PIPE_ERROR, OPEN_ERROR, fork, CHECK_FORK_STATUS, FAIL, perror, ret, CHILD, SIGNAL_HANDLER, signal, execvp, execAnswer, CHECK_EXEC_STATUS, exit, waitpid, CHECK_WAIT_STATUS, getErrno, Proc.log, Step.outcome, Step.proc, hpipe, hf, hs0, hs1, hdup, hargv, hfile]
    split_ifs <;> simp [pipe, close, dup2, openFile, CHECK_DUP_STATUS, PIPE_ERROR, OPEN_ERROR, fork, CHECK_FORK_STATUS, FAIL, perror, ret, CHILD, SIGNAL_HANDLER, signal, execvp, execAnswer, CHECK_EXEC_STATUS, exit, waitpid, CHECK_WAIT_STATUS, getErrno, Proc.log, Step.outcome, Step.proc, *]
    all_goals simp_all
  · intro hf0 hf1 hf2
    simp [single_piping, pipe, close, dup2, openFile, CHECK_DUP_STATUS, PIPE_ERROR, OPEN_ERROR, fork, CHECK_FORK_STATUS, FAIL, perror, ret, CHILD, SIGNAL_HANDLER, signal, execvp, execAnswer, CHECK_EXEC_STATUS, exit, waitpid, CHECK_WAIT_STATUS, getErrno, Proc.log, Step.outcome, Step.proc, hpipe, hf0, hf1, hf2, hs0, hs1, hdup, hargv2, hfile2]
    split_ifs <;> simp [pipe, close, dup2, openFile, CHECK_DUP_STATUS, PIPE_ERROR, OPEN_ERROR, fork, CHECK_FORK_STATUS, FAIL, perror, ret, CHILD, SIGNAL_HANDLER, signal, execvp, execAnswer, CHECK_EXEC_STATUS, exit, waitpid, CHECK_WAIT_STATUS, getErrno, Proc.log, Step.outcome, Step.proc, *]
    all_goals simp_all
  · intro hmem
    obtain ⟨j, hj, hjeq⟩ := List.getElem_of_mem hmem
    have hjlt : j < i := by
      have := hj
      simp at this
      omega
    have : tokens[j]? = some "|" := by
      rw [List.getElem?_eq_getElem (by omega)]
      rw [List.getElem_take] at hjeq
      rw [hjeq]
    have := huniq j this
    omega
  · intro hmem
    obtain ⟨j, hj, hjeq⟩ := List.getElem_of_mem hmem
    have hjlt : i + 1 + j < tokens.length := by
      have := hj
      simp at this
      omega
    have : tokens[i + 1 + j]? = some "|" := by
      rw [List.getElem?_eq_getElem hjlt]
      rw [List.getElem_drop] at hjeq
      rw [hjeq]
    have := huniq _ this
    omega

/-- C5 amended, at the tokens `ls | wc -l`: the second child executes `wc` with
the argument vector `[wc, -l]`. -/
theorem pipeline_mode_witness :
    (process_arglist 4 (mkArglist ["ls", "|", "wc", "-l"])
        (proc0 { os0 with fork_ret := fun n => if n = 0 then 100 else 0 })).proc.trace
      = [Event.signal Sig.SIGINT Handler.SIG_DFL false,
         Event.signal Sig.SIGCHLD Handler.SIG_DFL false,
         Event.close 4, Event.dup2 3 0 0, Event.close 3,
         Event.execvp (some "wc") ["wc", "-l"] ExecAnswer.replaced] := by
  have h := (pipeline_mode ["ls", "|", "wc", "-l"]
    (proc0 { os0 with fork_ret := fun n => if n = 0 then 100 else 0 }) 1 3 4
    (by decide)
    (by
      intro j hj
      rcases j with _ | _ | _ | _ | j
      · simp at hj
      · rfl
      · simp at hj
      · simp at hj
      · simp at hj)
    (by decide) (by decide) (by decide) rfl rfl rfl rfl).2.1 (by decide) (by decide) rfl
  exact h

/-- C5 as stated fails: the tokens `ls | wc &` contain exactly one `"|"`, yet the
background executor runs and the child hands `execvp` the argument vector
`[ls, |, wc]`, which contains the pipe marker. -/
theorem pipe_marker_in_background_argv :
    (process_arglist 4 (mkArglist ["ls", "|", "wc", "&"])
        (proc0 { os0 with fork_ret := fun _ => 0 })).proc.trace
      = [Event.signal Sig.SIGINT Handler.SIG_DFL false,
         Event.signal Sig.SIGCHLD Handler.SIG_DFL false,
         Event.execvp (some "ls") ["ls", "|", "wc"] ExecAnswer.replaced]
    ∧ (["ls", "|", "wc", "&"] : List String).count "|" = 1 := by
  decide

theorem update_pipe_parent (f : Int → Option Obj) (rd wr : Int)
    (hrd : f rd = none) (hwr : f wr = none) :
    Function.update (Function.update (Function.update (Function.update f rd
      (some Obj.pipeRead)) wr (some Obj.pipeWrite)) rd none) wr none = f := by
  funext fd
  by_cases ha : fd = wr
  · subst ha; simp [hwr]
  · by_cases hb : fd = rd
    · subst hb; simp [Function.update, ha, hrd]
    · simp [Function.update, ha, hb]

set_option maxHeartbeats 1000000 in
theorem single_piping_paths (idx : Nat) (arglist : List (Option String)) (p : Proc)
    (rd wr : Int)
    (hpipe : p.os.pipe_ret = some (rd, wr)) (hne : rd ≠ wr)
    (hrd : p.fds rd = none) (hwr : p.fds wr = none)
    (hrd0 : rd ≠ 0) (hwr1 : wr ≠ 1) :
    (p.os.fork_ret 0 ≠ 0 → p.os.fork_ret 0 ≠ -1 → p.os.fork_ret 1 ≠ 0 → p.os.fork_ret 1 ≠ -1 →
      (single_piping idx arglist p).proc.trace
        = p.trace ++
          [Event.pipe 0 rd wr, Event.fork (p.os.fork_ret 0), Event.fork (p.os.fork_ret 1),
           Event.close rd, Event.close wr,
           Event.waitpid (p.os.fork_ret 0) 0 (p.os.waitpid_ret 0).1 (p.os.waitpid_ret 0).2]
          ++ (if waitReported (p.os.waitpid_ret 0) then [Event.perror "Waitpid() failed"]
              else
                [Event.waitpid (p.os.fork_ret 1) 0 (p.os.waitpid_ret 1).1 (p.os.waitpid_ret 1).2]
                ++ (if waitReported (p.os.waitpid_ret 1) then [Event.perror "Waitpid() failed"]
                    else []))
      ∧ (single_piping idx arglist p).proc.fds = p.fds)
    ∧ (p.os.fork_ret 0 = 0 →
      (single_piping idx arglist p).proc.trace
        = [Event.signal Sig.SIGINT Handler.SIG_DFL (p.os.signal_err 0)]
          ++ (if p.os.signal_err 0 then [Event.perror "SIGINT error", Event.exit 1]
          else [Event.signal Sig.SIGCHLD Handler.SIG_DFL (p.os.signal_err 1)]
          ++ (if p.os.signal_err 1 then [Event.perror "SIGCHLD error", Event.exit 1]
          else [Event.close rd, Event.dup2 wr 1 (if p.os.dup2_fails then -1 else 1),
                Event.close wr]
          ++ (if p.os.dup2_fails then [Event.perror "dup2() failed", Event.exit 1]
          else [Event.execvp (slot (arglist.set idx none) 0) (argvOf (arglist.set idx none))
                  (execAnswer p.os (slot (arglist.set idx none) 0))]
          ++ (if execAnswer p.os (slot (arglist.set idx none) 0) = ExecAnswer.failed then
                [Event.perror "Error while executing the command", Event.exit 1]
              else []))))
      ∧ ((∃ file argv answer,
            Event.execvp file argv answer ∈ (single_piping idx arglist p).proc.trace) →
          (single_piping idx arglist p).proc.fds
            = Function.update p.fds 1 (some Obj.pipeWrite)))
    ∧ (p.os.fork_ret 0 ≠ 0 → p.os.fork_ret 0 ≠ -1 → p.os.fork_ret 1 = 0 →
      (single_piping idx arglist p).proc.trace
        = [Event.signal Sig.SIGINT Handler.SIG_DFL (p.os.signal_err 0)]
          ++ (if p.os.signal_err 0 then [Event.perror "SIGINT error", Event.exit 1]
          else [Event.signal Sig.SIGCHLD Handler.SIG_DFL (p.os.signal_err 1)]
          ++ (if p.os.signal_err 1 then [Event.perror "SIGCHLD error", Event.exit 1]
          else [Event.close wr, Event.dup2 rd 0 (if p.os.dup2_fails then -1 else 0),
                Event.close rd]
          ++ (if p.os.dup2_fails then [Event.perror "dup2() failed", Event.exit 1]
          else [Event.execvp (slot (arglist.set idx none) (idx + 1))
                  (argvOf ((arglist.set idx none).drop (idx + 1)))
                  (execAnswer p.os (slot (arglist.set idx none) (idx + 1)))]
          ++ (if execAnswer p.os (slot (arglist.set idx none) (idx + 1)) = ExecAnswer.failed then
                [Event.perror "Error while executing the command", Event.exit 1]
              else []))))
      ∧ ((∃ file argv answer,
            Event.execvp file argv answer ∈ (single_piping idx arglist p).proc.trace) →
          (single_piping idx arglist p).proc.fds
            = Function.update p.fds 0 (some Obj.pipeRead))) := by
  refine ⟨?_, ?_, ?_⟩
  · intro hf0 hf1 hf2 hf3
    generalize hr : single_piping idx arglist p = r
    simp [single_piping, pipe, close, dup2, openFile, CHECK_DUP_STATUS, PIPE_ERROR, OPEN_ERROR, fork, CHECK_FORK_STATUS, FAIL, perror, ret, CHILD, SIGNAL_HANDLER, signal, execvp, execAnswer, CHECK_EXEC_STATUS, exit, waitpid, CHECK_WAIT_STATUS, getErrno, Proc.log, hpipe, hf0, hf1, hf2, hf3] at hr
    repeat' (split_ifs at hr <;> try simp [pipe, close, dup2, openFile, CHECK_DUP_STATUS, PIPE_ERROR, OPEN_ERROR, fork, CHECK_FORK_STATUS, FAIL, perror, ret, CHILD, SIGNAL_HANDLER, signal, execvp, execAnswer, CHECK_EXEC_STATUS, exit, waitpid, CHECK_WAIT_STATUS, getErrno, Proc.log, *] at hr)
    all_goals
      subst hr
      simp [Step.proc, waitReported, update_pipe_parent, *]
    all_goals (try split_ifs)
    all_goals (first | omega | simp_all)
  · intro hf
    generalize hr : single_piping idx arglist p = r
    simp [single_piping, pipe, close, dup2, openFile, CHECK_DUP_STATUS, PIPE_ERROR, OPEN_ERROR, fork, CHECK_FORK_STATUS, FAIL, perror, ret, CHILD, SIGNAL_HANDLER, signal, execvp, execAnswer, CHECK_EXEC_STATUS, exit, waitpid, CHECK_WAIT_STATUS, getErrno, Proc.log, hpipe, hf] at hr
    repeat' (split_ifs at hr <;> try simp [pipe, close, dup2, openFile, CHECK_DUP_STATUS, PIPE_ERROR, OPEN_ERROR, fork, CHECK_FORK_STATUS, FAIL, perror, ret, CHILD, SIGNAL_HANDLER, signal, execvp, execAnswer, CHECK_EXEC_STATUS, exit, waitpid, CHECK_WAIT_STATUS, getErrno, Proc.log, *] at hr)
    all_goals
      subst hr
      simp [Step.proc, execAnswer, *]
    all_goals
      funext fd
      simp only [Function.update]
      split_ifs <;> first | omega | simp_all
  · intro hf0 hf1 hf2
    generalize hr : single_piping idx arglist p = r
    simp [single_piping, pipe, close, dup2, openFile, CHECK_DUP_STATUS, PIPE_ERROR, OPEN_ERROR, fork, CHECK_FORK_STATUS, FAIL, perror, ret, CHILD, SIGNAL_HANDLER, signal, execvp, execAnswer, CHECK_EXEC_STATUS, exit, waitpid, CHECK_WAIT_STATUS, getErrno, Proc.log, hpipe, hf0, hf1, hf2] at hr
    repeat' (split_ifs at hr <;> try simp [pipe, close, dup2, openFile, CHECK_DUP_STATUS, PIPE_ERROR, OPEN_ERROR, fork, CHECK_FORK_STATUS, FAIL, perror, ret, CHILD, SIGNAL_HANDLER, signal, execvp, execAnswer, CHECK_EXEC_STATUS, exit, waitpid, CHECK_WAIT_STATUS, getErrno, Proc.log, *] at hr)
    all_goals
      subst hr
      simp [Step.proc, execAnswer, *]
    all_goals
      funext fd
      simp only [Function.update]
      split_ifs <;> first | omega | simp_all

/-- C7 fails in pipeline mode.  With the tokens `ls | wc` and `pipe` answering
descriptors 3 and 4 (closed before the call): when the first `fork` fails,
`process_arglist` returns with both descriptors still open; when the second
`fork` fails it returns with both descriptors still open and with the first
child (pid 100) created and not waited for. -/
theorem fork_failure_leaves_pipe_open :
    ((proc0 os0).fds 3 = none ∧ (proc0 os0).fds 4 = none)
    ∧ ((process_arglist 3 (mkArglist ["ls", "|", "wc"])
          (proc0 { os0 with fork_ret := fun _ => -1 })).outcome = some (Outcome.returned 0)
      ∧ (process_arglist 3 (mkArglist ["ls", "|", "wc"])
          (proc0 { os0 with fork_ret := fun _ => -1 })).proc.fds 3 = some Obj.pipeRead
      ∧ (process_arglist 3 (mkArglist ["ls", "|", "wc"])
          (proc0 { os0 with fork_ret := fun _ => -1 })).proc.fds 4 = some Obj.pipeWrite
      ∧ (process_arglist 3 (mkArglist ["ls", "|", "wc"])
          (proc0 { os0 with fork_ret := fun _ => -1 })).proc.trace
            = [Event.pipe 0 3 4, Event.fork (-1), Event.perror "Error while forking"])
    ∧ ((process_arglist 3 (mkArglist ["ls", "|", "wc"])
          (proc0 { os0 with fork_ret := fun n => if n = 0 then 100 else -1 })).outcome
            = some (Outcome.returned 0)
      ∧ (process_arglist 3 (mkArglist ["ls", "|", "wc"])
          (proc0 { os0 with fork_ret := fun n => if n = 0 then 100 else -1 })).proc.fds 3
            = some Obj.pipeRead
      ∧ (process_arglist 3 (mkArglist ["ls", "|", "wc"])
          (proc0 { os0 with fork_ret := fun n => if n = 0 then 100 else -1 })).proc.fds 4
            = some Obj.pipeWrite
      ∧ (process_arglist 3 (mkArglist ["ls", "|", "wc"])
          (proc0 { os0 with fork_ret := fun n => if n = 0 then 100 else -1 })).proc.children
            = [100]
      ∧ (process_arglist 3 (mkArglist ["ls", "|", "wc"])
          (proc0 { os0 with fork_ret := fun n => if n = 0 then 100 else -1 })).proc.trace
            = [Event.pipe 0 3 4, Event.fork 100, Event.fork (-1),
               Event.perror "Error while forking"]) := by
  decide

/-! ## The zombie reaper -/

theorem finalize_run (n : Nat) : ∀ (p : Proc) (fuel : Nat),
    (∀ k < n, 0 < (p.os.waitpid_ret k).1) → (p.os.waitpid_ret n).1 ≤ 0 → n < fuel →
    ∃ q, finalize fuel p
        = some (Step.done (Outcome.returned
            (if reapReported (p.os.waitpid_ret n) then 1 else 0)) q)
      ∧ q.trace = p.trace ++ (List.range (n + 1)).map (reapCall p.os)
          ++ (if reapReported (p.os.waitpid_ret n) then [Event.perror FINALIZE_WAIT_ERROR]
              else []) := by
  induction n with
  | zero =>
    intro p fuel _ hend hfuel
    obtain ⟨fuel, rfl⟩ : ∃ m, fuel = m + 1 := ⟨fuel - 1, by omega⟩
    by_cases hrep : reapReported (p.os.waitpid_ret 0)
    · have h1 : (p.os.waitpid_ret 0).1 = -1 := hrep.1
      have h2 : (p.os.waitpid_ret 0).2 ≠ ECHILD := hrep.2
      simp [finalize, waitpid, perror, ret, Proc.log, reapCall, reapReported, h1, h2, List.range_succ]
    · have h1 : ¬ ((p.os.waitpid_ret 0).1 = -1 ∧ (p.os.waitpid_ret 0).2 ≠ ECHILD) := hrep
      have h3 : ¬ (0 < (p.os.waitpid_ret 0).1) := by omega
      simp only [finalize, waitpid]
      by_cases hm : (p.os.waitpid_ret 0).1 = -1
      · have h4 : (p.os.waitpid_ret 0).2 = ECHILD := by
          by_contra hc; exact h1 ⟨hm, hc⟩
        simp [ret, reapCall, reapReported, hm, h4, List.range_succ]
      · simp [ret, reapCall, reapReported, hm, h3, List.range_succ]
  | succ n ih =>
    intro p fuel hpos hend hfuel
    obtain ⟨fuel, rfl⟩ : ∃ m, fuel = m + 1 := ⟨fuel - 1, by omega⟩
    have h0 : 0 < (p.os.waitpid_ret 0).1 := hpos 0 (by omega)
    have hm : (p.os.waitpid_ret 0).1 ≠ -1 := by omega
    obtain ⟨q, hq, htr⟩ := ih
      { p with
        os := { p.os with waitpid_ret := fun k => p.os.waitpid_ret (k + 1) },
        errno := p.errno,
        children := p.children.erase (p.os.waitpid_ret 0).1,
        trace := p.trace ++ [reapCall p.os 0] }
      fuel (fun k hk => hpos (k + 1) (by omega)) hend (by omega)
    refine ⟨q, ?_, ?_⟩
    · simp only [finalize, waitpid]
      simp only [hm, h0, false_and, if_false, if_true, gt_iff_lt]
      simpa [reapCall] using hq
    · rw [htr]
      simp only [List.append_assoc, List.singleton_append]
      rw [List.range_succ_eq_map (n + 1)]
      simp [reapCall, Function.comp_def]

/-- C8: `finalize` calls only `waitpid(-1, _, WNOHANG)`, again as long as the
answer is a positive pid.  If the first `n` answers are positive and the next
one is not, `finalize` (given fuel for `n + 1` iterations) returns after exactly
those `n + 1` calls: it returns `0` with no diagnostic when the last answer is
`0` or is `-1` with `ECHILD`, and it returns `1` after the diagnostic if and
only if some call answered `-1` with an error other than `ECHILD`. -/
theorem finalize_reaps (p : Proc) (n fuel : Nat)
    (hpos : ∀ k < n, 0 < (p.os.waitpid_ret k).1)
    (hend : (p.os.waitpid_ret n).1 ≤ 0) (hfuel : n < fuel) :
    ∃ q v, finalize fuel p = some (Step.done (Outcome.returned v) q)
      ∧ q.trace = p.trace ++ (List.range (n + 1)).map (reapCall p.os)
          ++ (if v = 1 then [Event.perror FINALIZE_WAIT_ERROR] else [])
      ∧ (v = 0 ∨ v = 1)
      ∧ (v = 1 ↔ ∃ k ≤ n, (p.os.waitpid_ret k).1 = -1 ∧ (p.os.waitpid_ret k).2 ≠ ECHILD)
      ∧ ((p.os.waitpid_ret n).1 = 0
          ∨ ((p.os.waitpid_ret n).1 = -1 ∧ (p.os.waitpid_ret n).2 = ECHILD) → v = 0) := by
  obtain ⟨q, hq, htr⟩ := finalize_run n p fuel hpos hend hfuel
  refine ⟨q, _, hq, ?_, ?_, ?_, ?_⟩
  · rw [htr]
    by_cases hrep : reapReported (p.os.waitpid_ret n) <;> simp [hrep]
  · by_cases hrep : reapReported (p.os.waitpid_ret n) <;> simp [hrep]
  · by_cases hrep : reapReported (p.os.waitpid_ret n)
    · simp only [hrep, if_true, true_iff]
      exact ⟨n, le_refl n, hrep.1, hrep.2⟩
    · simp only [hrep, if_false]
      constructor
      · intro h; omega
      · rintro ⟨k, hk, hk1, hk2⟩
        rcases Nat.lt_or_ge k n with hlt | hge
        · have := hpos k hlt; omega
        · have hkn : k = n := by omega
          subst hkn
          exact absurd ⟨hk1, hk2⟩ hrep
  · intro h
    have hrep : ¬ reapReported (p.os.waitpid_ret n) := by
      rintro ⟨h1, h2⟩
      rcases h with h | h
      · omega
      · exact h2 h.2
    simp [hrep]

/-- C8, when no children exist: the first answer is `-1` with `ECHILD`, and
`finalize` returns `0` after that single call, with no diagnostic. -/
theorem finalize_reaps_witness :
    ∃ q v, finalize 1 (proc0 { os0 with waitpid_ret := fun _ => (-1, ECHILD) })
        = some (Step.done (Outcome.returned v) q)
      ∧ q.trace = [Event.waitpid (-1) WNOHANG (-1) ECHILD]
          ++ (if v = 1 then [Event.perror FINALIZE_WAIT_ERROR] else [])
      ∧ v = 0 := by
  obtain ⟨q, v, h1, h2, _, _, h5⟩ := finalize_reaps
    (proc0 { os0 with waitpid_ret := fun _ => (-1, ECHILD) }) 0 1
    (by intro k hk; omega) (by decide) (by decide)
  exact ⟨q, v, h1, by simpa [reapCall, proc0] using h2, h5 (Or.inr ⟨rfl, rfl⟩)⟩

end MyShell
